import Mathlib

/-
Verification of the images-sorter backend against its specification.

The development shallowly embeds the Python sources:
  * src/backend/functions/folders.py      (tiling planner, tiler, per-item inference)
  * src/backend/functions/image_processor.py  (ImageProcessor: resource state,
    per-item failure handling, batch orchestration)
  * src/backend/api/api.py                (folder streaming endpoint)

Python floats are modelled by exact rationals (ℚ): every concrete input used
below involves only dyadic values (halves, small integers), on which IEEE
double arithmetic and comparison agree with exact rational arithmetic.
Python exceptions are modelled by an explicit `Except` layer; machine state
mutated through `self` is threaded explicitly.
-/

set_option maxRecDepth 40000

attribute [local semireducible] Rat.mul Rat.inv Rat.add Rat.sub

namespace ImagesSorter

/-- Decidable equality on `Except`, used to evaluate concrete outcomes. -/
instance {ε α : Type} [DecidableEq ε] [DecidableEq α] : DecidableEq (Except ε α) := fun x y =>
  match x, y with
  | .ok a, .ok b =>
    if h : a = b then .isTrue (congrArg Except.ok h)
    else .isFalse fun hc => h (Except.ok.inj hc)
  | .error a, .error b =>
    if h : a = b then .isTrue (congrArg Except.error h)
    else .isFalse fun hc => h (Except.error.inj hc)
  | .ok _, .error _ => .isFalse fun hc => Except.noConfusion hc
  | .error _, .ok _ => .isFalse fun hc => Except.noConfusion hc

/-- Exception classes that can arise inside the per-item pipeline, mirroring
the Python exception classes distinguished by the handlers in
`ImageProcessor._process_single_image` (FileNotFoundError, PermissionError,
ValueError, torch.cuda.OutOfMemoryError, and the catch-all Exception), plus
ZeroDivisionError, which `dynamic_preprocess` can raise when a height is 0.
Every constructor models an `Exception` subclass; `toMessage` is `str(e)`. -/
inductive PyExc where
  | fileNotFound (msg : String)
  | permissionDenied (msg : String)
  | valueError (msg : String)
  | cudaOutOfMemory (msg : String)
  | runtimeError (msg : String)
  | zeroDivisionError
  | otherError (msg : String)
  deriving DecidableEq, Repr

/-- Python `str(e)` for a modelled exception. -/
def PyExc.toMessage : PyExc → String
  | .fileNotFound m => m
  | .permissionDenied m => m
  | .valueError m => m
  | .cudaOutOfMemory m => m
  | .runtimeError m => m
  | .zeroDivisionError => "division by zero"
  | .otherError m => m

/-! ## folders.py: `inference_on_images`

The function body (folders.py lines 170-221) runs, inside one `try`,
`load_image_for_internvl(path)`, a device move of the pixel values, and
`model.chat(...)`; the `except Exception` clause converts ANY exception
raised by those steps into the string `"Error processing image: " + str(e)`.
The three steps are opaque external capabilities here, so they are passed as
parameters returning `Except PyExc _`; pixel-value tensors are abstract
handles (`Nat`). -/

/-- The body of the `try` block of `inference_on_images`: load and
preprocess, move to device, `model.chat`. -/
def inferenceTryBody (loadStep : Except PyExc Nat) (moveStep : Nat → Except PyExc Nat)
    (chatStep : Nat → Except PyExc String) : Except PyExc String :=
  match loadStep with
  | .error e => .error e
  | .ok pixel_values =>
    match moveStep pixel_values with
    | .error e => .error e
    | .ok moved =>
      match chatStep moved with
      | .error e => .error e
      | .ok response => .ok response

/-- Embedding of `inference_on_images` (folders.py lines 170-221): the whole
body is wrapped in `try/except Exception`, so the function always returns a
plain string; a failure of any step becomes
`"Error processing image: " + str(e)`. -/
def inference_on_images (loadStep : Except PyExc Nat) (moveStep : Nat → Except PyExc Nat)
    (chatStep : Nat → Except PyExc String) : String :=
  match inferenceTryBody loadStep moveStep chatStep with
  | .ok response => response
  | .error e => "Error processing image: " ++ e.toMessage

/-! ## image_processor.py: `ImageProcessor` state and resource operations -/

/-- The mutable attributes of the `ImageProcessor` dataclass, together with
observable effect counters: `loadCount` counts completed
`_load_model_and_processor` runs (its value also serves as a fresh handle
id), `clearCacheCalls` counts invocations of `clear_cache`,
`emptyCacheCalls` counts actual `torch.cuda.empty_cache()` calls, and
`logStarted` records, in order, the image paths whose processing was started
(the `logger.info("Starting processing of image ...")` trace at the top of
`_process_single_image`). `cudaAvailable` models `torch.cuda.is_available()`. -/
structure ImageProcessorState where
  model : Option Nat
  tokenizer : Option Nat
  processor : Option Nat
  is_loaded : Bool
  cudaAvailable : Bool
  loadCount : Nat
  clearCacheCalls : Nat
  emptyCacheCalls : Nat
  logStarted : List String
  deriving DecidableEq, Repr

/-- Embedding of `ImageProcessor.clear_cache` (image_processor.py lines
244-247): `if torch.cuda.is_available(): torch.cuda.empty_cache()`. It
touches no other attribute: in particular `_is_loaded`, `_model` and
`_tokenizer` are left as they are. -/
def clear_cache (s : ImageProcessorState) : ImageProcessorState :=
  let s1 := { s with clearCacheCalls := s.clearCacheCalls + 1 }
  if s.cudaAvailable then { s1 with emptyCacheCalls := s1.emptyCacheCalls + 1 } else s1

/-- Embedding of `ImageProcessor._load_model_and_processor` (lines 70-105):
returns immediately when `_is_loaded`; otherwise loads a fresh
tokenizer/model pair (fresh handle id `loadCount + 1`), sets `_processor`
to `None` and `_is_loaded` to `True`. -/
def load_model_and_processor (s : ImageProcessorState) : ImageProcessorState :=
  if s.is_loaded then s
  else
    { s with
      tokenizer := some (s.loadCount + 1)
      model := some (s.loadCount + 1)
      processor := none
      is_loaded := true
      loadCount := s.loadCount + 1 }

/-- Embedding of the `model` property getter (lines 26-31): a load is
triggered only when `_is_loaded` is false; the (possibly updated) `_model`
is returned together with the new state. -/
def modelGetter (s : ImageProcessorState) : Option Nat × ImageProcessorState :=
  let s1 := if s.is_loaded then s else load_model_and_processor s
  (s1.model, s1)

/-- Embedding of `ImageProcessor._ensure_models_loaded` (lines 119-133): it
accesses the `model` (and `processor`) properties, triggering a load when
not loaded. -/
def ensure_models_loaded (s : ImageProcessorState) : ImageProcessorState :=
  (modelGetter s).2

/-! ## image_processor.py: per-item failure handling -/

/-- The five distinct per-item failure classes of
`_process_single_image` (lines 159-179), one per `except` clause. -/
inductive ErrorKind where
  | fileNotFound
  | permissionDenied
  | invalidImageData
  | outOfMemory
  | unexpected
  deriving DecidableEq, Repr

/-- Which `except` clause of `_process_single_image` handles a raised
exception, in the source's clause order. -/
def classifyExc : PyExc → ErrorKind
  | .fileNotFound _ => .fileNotFound
  | .permissionDenied _ => .permissionDenied
  | .valueError _ => .invalidImageData
  | .cudaOutOfMemory _ => .outOfMemory
  | .runtimeError _ => .unexpected
  | .zeroDivisionError => .unexpected
  | .otherError _ => .unexpected

/-- Outcome of one item: `success` carries the returned description text;
`error` carries which handler classified the failure and the logged message.
In the source the wrapper returns `True`/`False` and the classification is
observable through the distinct `logger.error` message of each clause. -/
inductive ItemStatus where
  | success (text : String)
  | error (kind : ErrorKind) (msg : String)
  deriving DecidableEq, Repr

/-- The per-item record accumulated by the batch loop: the item's source
path and its status. -/
structure ItemResult where
  path : String
  status : ItemStatus
  deriving DecidableEq, Repr

/-- True when the wrapper returned `True` for this item. -/
def ItemResult.isSuccess (r : ItemResult) : Bool :=
  match r.status with
  | .success _ => true
  | .error _ _ => false

/-- Embedding of `ImageProcessor._process_single_image` (lines 135-179).
`step` is the outcome of evaluating
`inference_on_images(image_path, self.tokenizer, model)` — a returned
string, or an exception raised while evaluating the call (e.g. by the
`tokenizer` property). A normal return yields `True` (success); each
exception class is handled by its own `except` clause, returns `False`,
and only `torch.cuda.OutOfMemoryError` additionally calls
`self.clear_cache()`. -/
def process_single_image (image_path : String) (step : Except PyExc String)
    (s : ImageProcessorState) : ItemResult × ImageProcessorState :=
  let s0 := { s with logStarted := s.logStarted ++ [image_path] }
  match step with
  | .ok response => ({ path := image_path, status := .success response }, s0)
  | .error e =>
    let s1 :=
      match e with
      | .cudaOutOfMemory _ => clear_cache s0
      | _ => s0
    ({ path := image_path, status := .error (classifyExc e) e.toMessage }, s1)

/-! ## image_processor.py: batch orchestration -/

/-- Batch-level exceptions raised by `process_images_batch`:
`emptyBatch` is the `ValueError("No image paths provided for processing")`
of `_validate_batch_inputs`, `invalidCap` its
`ValueError("num_images must be a positive integer")`, and
`totalBatchFailure n` is the `RuntimeError` raised by
`_handle_complete_failure` whose message names the batch size `n`. -/
inductive BatchExc where
  | emptyBatch
  | invalidCap
  | totalBatchFailure (total : Nat)
  deriving DecidableEq, Repr

/-- Aggregate outcome of a completed batch, mirroring the tallies of
`process_images_batch` plus the ordered per-item results (observable in the
source through the per-item `print`/log output, and materialised as a list
by the analogous loop of `api.py process_folder`). -/
structure BatchSummary where
  results : List ItemResult
  successful_count : Nat
  failed_count : Nat
  total_processed : Nat
  deriving DecidableEq, Repr

/-- The `for i in range(total_to_process)` loop of `process_images_batch`
(lines 223-226): runs `_process_single_image` on each listed path in order,
threading the processor state, and counts the successes. -/
def batchLoop (step : String → Except PyExc String) :
    List String → ImageProcessorState → List ItemResult × Nat × ImageProcessorState
  | [], s => ([], 0, s)
  | p :: ps, s =>
    let one := process_single_image p (step p) s
    let rest := batchLoop step ps one.2
    (one.1 :: rest.1, (if one.1.isSuccess then 1 else 0) + rest.2.1, rest.2.2)

/-- Embedding of `ImageProcessor.process_images_batch` (lines 199-233).
`num_images` is the Python `int` cap (default 7). Returns the batch outcome,
the final processor state, and a flag telling whether
`_ensure_models_loaded` (the only inference-resource access of this method)
was reached. Validation (`_validate_batch_inputs`, lines 107-117) runs
first: an empty list raises `emptyBatch`, then a non-positive cap raises
`invalidCap`. Then the model is ensured loaded, the first
`min(num_images, len(image_paths))` items are processed in order, and if no
item succeeded `_handle_complete_failure` (lines 193-197) raises
`totalBatchFailure` carrying the attempted count. -/
def process_images_batch (image_paths : List String) (num_images : Int)
    (step : String → Except PyExc String) (s : ImageProcessorState) :
    Except BatchExc BatchSummary × ImageProcessorState × Bool :=
  if image_paths.isEmpty then (.error .emptyBatch, s, false)
  else if num_images ≤ 0 then (.error .invalidCap, s, false)
  else
    let s1 := ensure_models_loaded s
    let total_to_process := min num_images.toNat image_paths.length
    let loopOut := batchLoop step (image_paths.take total_to_process) s1
    let successful_count := loopOut.2.1
    let failed_count := total_to_process - successful_count
    if successful_count = 0 then
      (.error (.totalBatchFailure total_to_process), loopOut.2.2, true)
    else
      (.ok ⟨loopOut.1, successful_count, failed_count, total_to_process⟩, loopOut.2.2, true)

/-! ## api.py: the folder streaming endpoint -/

/-- One newline-delimited JSON record yielded by
`process_folder_stream.generate_stream` (api.py lines 375-452), identified
by its `type` tag and the fields relevant here. `emptyComplete` is the early
`complete` record emitted when no image was found. -/
inductive StreamEvent where
  | metadata (total_found processed successful failed : Nat)
  | start (image_path : String) (index total : Nat)
  | result (image_path : String) (ok : Bool) (payload : String)
  | complete (processed successful failed : Nat)
  | emptyComplete
  | error (msg : String)
  deriving DecidableEq, Repr

/-- The per-item loop of `generate_stream` (lines 407-436): for each
enumerated path, a `start` record is yielded, then the item is processed and
a `result` record is yielded — status `success` with the description on a
normal return, status `error` with `str(e)` when the iteration's `try` body
raised; the loop then continues with the next item either way, threading the
`successful` counter. Returns the yielded records and the final counter. -/
def streamLoop (step : String → Except PyExc String) (total : Nat) :
    List (Nat × String) → Nat → List StreamEvent × Nat
  | [], successful => ([], successful)
  | (i, p) :: rest, successful =>
    match step p with
    | .ok response =>
      let out := streamLoop step total rest (successful + 1)
      (.start p (i + 1) total :: .result p true response :: out.1, out.2)
    | .error e =>
      let out := streamLoop step total rest successful
      (.start p (i + 1) total :: .result p false e.toMessage :: out.1, out.2)

/-- Embedding of `generate_stream` (api.py lines 375-452). `image_paths` is
the folder listing, `max_images` the cap, `ensureLoad` the outcome of
`image_processor._ensure_models_loaded()` and `step` the per-item processing
outcome. No images: a single early `complete` record. Otherwise: one
`metadata` record with `total_found` and zeroed counters, then — unless the
model load raised, which the outer `except` turns into a single `error`
record — the per-item records over the first `max_images` paths, then a
final `complete` record with the tallies. -/
def generate_stream (image_paths : List String) (max_images : Nat)
    (ensureLoad : Except PyExc Unit) (step : String → Except PyExc String) :
    List StreamEvent :=
  if image_paths.isEmpty then [.emptyComplete]
  else
    .metadata image_paths.length 0 0 0 ::
      match ensureLoad with
      | .error e => [.error e.toMessage]
      | .ok _ =>
        let images_to_process := image_paths.take max_images
        let out := streamLoop step images_to_process.length images_to_process.enum 0
        out.1 ++ [.complete images_to_process.length out.2 (images_to_process.length - out.2)]

/-! ## folders.py: aspect-ratio planner and tiler -/

/-- The quantity `abs(aspect - target)` compared by
`find_closest_aspect_ratio`: here `aspect` is the image aspect `W/H` and the
target is `r[0]/r[1]` for a candidate grid `r = (columns, rows)`. -/
def ratioDiff (aspect : ℚ) (r : Nat × Nat) : ℚ :=
  let target : ℚ := (r.1 : ℚ) / (r.2 : ℚ)
  if aspect ≤ target then target - aspect else aspect - target

/-- The loop of `find_closest_aspect_ratio` (folders.py lines 37-45), after
its first iteration: the running pair `(best_ratio_diff, best_pair)` always
satisfies `best_ratio_diff = ratioDiff aspect best_pair`, so only
`best_pair` is carried alongside its diff. A strictly smaller diff replaces
the best; an exactly equal diff replaces it only when
`area > 0.5 * image_size**2 * r[0] * r[1]` (with `area = width * height`). -/
def fcaAux (aspect area : ℚ) (image_size : Nat) :
    List (Nat × Nat) → ℚ → Nat × Nat → Nat × Nat
  | [], _, bestPair => bestPair
  | r :: rs, bestDiff, bestPair =>
    let d := ratioDiff aspect r
    if d < bestDiff then fcaAux aspect area image_size rs d r
    else if d = bestDiff then
      if area > (1 / 2 : ℚ) * image_size * image_size * r.1 * r.2 then
        fcaAux aspect area image_size rs bestDiff r
      else fcaAux aspect area image_size rs bestDiff bestPair
    else fcaAux aspect area image_size rs bestDiff bestPair

/-- Embedding of `find_closest_aspect_ratio` (folders.py lines 33-46). The
source starts from `best_ratio_diff = inf`, `best_ratio = (1, 1)`; the first
candidate always wins the strict comparison against infinity, which the
embedding performs explicitly; an empty candidate list returns `(1, 1)`. -/
def find_closest_aspect_ratio (aspect : ℚ) (target_pairs : List (Nat × Nat))
    (width height image_size : Nat) : Nat × Nat :=
  match target_pairs with
  | [] => (1, 1)
  | r :: rs => fcaAux aspect ((width : ℚ) * (height : ℚ)) image_size rs (ratioDiff aspect r) r

/-- The candidate-set comprehension of `dynamic_preprocess` (folders.py
lines 53-55), before deduplication and sorting:
`(i, j) for n in range(min_num, max_num+1) for i in range(1, n+1)
for j in range(1, n+1) if i*j <= max_num and i*j >= min_num`. -/
def targetPairsRaw (min_num max_num : Nat) : List (Nat × Nat) :=
  (List.range' min_num (max_num + 1 - min_num)).flatMap fun n =>
    (List.range' 1 n).flatMap fun i =>
      (List.range' 1 n).filterMap fun j =>
        if min_num ≤ i * j ∧ i * j ≤ max_num then some (i, j) else none

/-- The deduplicated candidate list sorted ascending by tile count
(folders.py line 56: `sorted(set(...), key=lambda x: x[0]*x[1])`). The
relative order of distinct pairs with the same product is unspecified in the
source (it is CPython set iteration order); the embedding fixes one such
order. -/
def target_pairs_sorted (min_num max_num : Nat) : List (Nat × Nat) :=
  (targetPairsRaw min_num max_num).dedup.insertionSort
    fun a b => a.1 * a.2 ≤ b.1 * b.2

/-- An in-memory PIL image, kept symbolic: an original raster of given
dimensions, or the result of `Image.resize` / `Image.crop`. -/
inductive PImage where
  | src (width height : Nat)
  | resize (img : PImage) (width height : Nat)
  | crop (img : PImage) (left upper right lower : Nat)
  deriving DecidableEq, Repr

/-- Pixel width of a `PImage` (for a crop, the box width). -/
def PImage.width : PImage → Nat
  | .src w _ => w
  | .resize _ w _ => w
  | .crop _ l _ r _ => r - l

/-- Pixel height of a `PImage` (for a crop, the box height). -/
def PImage.height : PImage → Nat
  | .src _ h => h
  | .resize _ _ h => h
  | .crop _ _ u _ d => d - u

/-- Embedding of `dynamic_preprocess` (folders.py lines 48-84). Mirrors the
source step by step: read the image size; compute `aspect = W / H` (a
`ZeroDivisionError` when `H = 0`, which the source does not guard against);
build and sort the candidate set; pick the closest pair; resize to
`(image_size * i, image_size * j)`; cut the row-major grid of
`blocks = i * j` tiles (the source's `assert len(processed_images) == blocks`
holds by construction here); finally, when `use_thumbnail` is set and the
grid yielded more than one tile, append the original image resized to
`image_size × image_size`. -/
def dynamic_preprocess (image : PImage) (min_num max_num image_size : Nat)
    (use_thumbnail : Bool) : Except PyExc (List PImage) :=
  let orig_width := image.width
  let orig_height := image.height
  if orig_height = 0 then .error .zeroDivisionError
  else
    let aspect : ℚ := (orig_width : ℚ) / (orig_height : ℚ)
    let pairs := target_pairs_sorted min_num max_num
    let targetPair := find_closest_aspect_ratio aspect pairs orig_width orig_height image_size
    let target_width := image_size * targetPair.1
    let target_height := image_size * targetPair.2
    let blocks := targetPair.1 * targetPair.2
    let resized_img := image.resize target_width target_height
    let cols := target_width / image_size
    let processed_images := (List.range blocks).map fun idx =>
      resized_img.crop ((idx % cols) * image_size) ((idx / cols) * image_size)
        ((idx % cols + 1) * image_size) ((idx / cols + 1) * image_size)
    if use_thumbnail = true ∧ processed_images.length ≠ 1 then
      .ok (processed_images ++ [image.resize image_size image_size])
    else
      .ok processed_images

/-! ## Specification-side description of the planner's choice

The following definitions restate, in the words of the specification, how
the chosen pair relates to the candidate list; they are compared against
`find_closest_aspect_ratio` (which is translated from the source) in the C4
theorems. -/

/-- Last element of a list, or the default when the list is empty. -/
def lastD {α : Type} (l : List α) (dflt : α) : α :=
  l.foldl (fun _ x => x) dflt

/-- The source's tie-break test, as a predicate on a candidate: the image
area `W*H` exceeds half of the candidate's total tile area
`i * j * image_size²`. -/
def codeAreaCond (width height image_size : Nat) (r : Nat × Nat) : Bool :=
  decide (((width : ℚ) * (height : ℚ)) >
    (1 / 2 : ℚ) * image_size * image_size * r.1 * r.2)

/-- The claim's tie-break test: the candidate's total tile area
`i * j * image_size²` exceeds half of the image area `W*H`. -/
def claimAreaCond (width height image_size : Nat) (r : Nat × Nat) : Bool :=
  decide (((r.1 : ℚ) * (r.2 : ℚ) * image_size * image_size) >
    (1 / 2 : ℚ) * ((width : ℚ) * (height : ℚ)))

/-- The minimum of `ratioDiff aspect` over a candidate list, folded from an
initial value (the running best difference). -/
def minDiffOver (aspect init : ℚ) (rs : List (Nat × Nat)) : ℚ :=
  (rs.map (ratioDiff aspect)).foldl min init

/-- The candidates of a list whose `ratioDiff` equals a given value. -/
def tiesAt (aspect m : ℚ) (rs : List (Nat × Nat)) : List (Nat × Nat) :=
  rs.filter fun x => decide (ratioDiff aspect x = m)

/-- Selection rule stated from the claim's words, parameterised by the
tie-break test `cond`: among the candidates, those attaining the minimal
`ratioDiff` are the ties; the result is the last tie (in list order)
satisfying `cond`, and when no tie satisfies `cond`, the first candidate
attaining the minimum stands. An empty candidate list yields `(1, 1)`. -/
def specSelect (aspect : ℚ) (cond : Nat × Nat → Bool) :
    List (Nat × Nat) → Nat × Nat
  | [] => (1, 1)
  | r :: rs =>
    lastD ((tiesAt aspect (minDiffOver aspect (ratioDiff aspect r) rs) (r :: rs)).filter cond)
      ((tiesAt aspect (minDiffOver aspect (ratioDiff aspect r) rs) (r :: rs)).headD (1, 1))

/-- The source's tie-break test with the image area passed as a rational
(the form carried through the `fcaAux` characterisation). -/
def condB (area : ℚ) (image_size : Nat) (r : Nat × Nat) : Bool :=
  decide (area > (1 / 2 : ℚ) * image_size * image_size * r.1 * r.2)

/-- Continuation specification for `fcaAux`: starting from a current best
candidate, the final result either switches to the tie structure at the new
strictly smaller minimum found in the remaining list, or — when the
remaining list does not improve on the current best difference — is the last
remaining candidate tying the current best and passing the area test, the
current best standing if none does. -/
def contSpec (aspect area : ℚ) (image_size : Nat) (best : Nat × Nat)
    (rs : List (Nat × Nat)) : Nat × Nat :=
  if minDiffOver aspect (ratioDiff aspect best) rs < ratioDiff aspect best then
    lastD ((tiesAt aspect (minDiffOver aspect (ratioDiff aspect best) rs) rs).filter
        (condB area image_size))
      ((tiesAt aspect (minDiffOver aspect (ratioDiff aspect best) rs) rs).headD (1, 1))
  else
    lastD (rs.filter fun x =>
        condB area image_size x && decide (ratioDiff aspect x = ratioDiff aspect best)) best

lemma lastD_cons {α : Type} (x : α) (l : List α) (d : α) : lastD (x :: l) d = lastD l x := rfl

lemma lastD_cons_filter {α : Type} (p : α → Bool) (r : α) (l : List α) :
    lastD ((r :: l).filter p) r = lastD (l.filter p) r := by
  rw [List.filter_cons]
  by_cases hp : p r = true
  · rw [if_pos hp, lastD_cons]
  · rw [if_neg hp]

lemma foldlMin_le (l : List ℚ) : ∀ i : ℚ, l.foldl min i ≤ i := by
  induction l with
  | nil => intro i; exact le_refl i
  | cons y l ih => intro i; exact le_trans (ih (min i y)) (min_le_left i y)

lemma foldlMin_comm (l : List ℚ) : ∀ i x : ℚ, l.foldl min (min i x) = min x (l.foldl min i) := by
  induction l with
  | nil => intro i x; exact min_comm i x
  | cons y l ih =>
    intro i x
    show l.foldl min (min (min i x) y) = min x (l.foldl min (min i y))
    rw [show min (min i x) y = min (min i y) x by
      rw [min_assoc, min_assoc, min_comm x y], ih (min i y) x]

lemma minDiffOver_le (aspect init : ℚ) (rs : List (Nat × Nat)) :
    minDiffOver aspect init rs ≤ init :=
  foldlMin_le _ init

lemma minDiffOver_cons (aspect init : ℚ) (r : Nat × Nat) (rs : List (Nat × Nat)) :
    minDiffOver aspect init (r :: rs) = min (ratioDiff aspect r) (minDiffOver aspect init rs) := by
  show (rs.map (ratioDiff aspect)).foldl min (min init (ratioDiff aspect r))
      = min (ratioDiff aspect r) ((rs.map (ratioDiff aspect)).foldl min init)
  exact foldlMin_comm _ init (ratioDiff aspect r)

lemma minDiffOver_init (aspect i x : ℚ) (rs : List (Nat × Nat)) :
    minDiffOver aspect (min i x) rs = min x (minDiffOver aspect i rs) :=
  foldlMin_comm _ i x

lemma tiesAt_cons_ne (aspect m : ℚ) (r : Nat × Nat) (rs : List (Nat × Nat))
    (h : ratioDiff aspect r ≠ m) : tiesAt aspect m (r :: rs) = tiesAt aspect m rs := by
  simp [tiesAt, List.filter_cons, h]

lemma tiesAt_cons_eq (aspect m : ℚ) (r : Nat × Nat) (rs : List (Nat × Nat))
    (h : ratioDiff aspect r = m) : tiesAt aspect m (r :: rs) = r :: tiesAt aspect m rs := by
  simp [tiesAt, List.filter_cons, h]

lemma contSpec_cons_gt (aspect area : ℚ) (e : Nat) (best r : Nat × Nat) (rs : List (Nat × Nat))
    (h : ratioDiff aspect best < ratioDiff aspect r) :
    contSpec aspect area e best (r :: rs) = contSpec aspect area e best rs := by
  have hM : minDiffOver aspect (ratioDiff aspect best) rs ≤ ratioDiff aspect best :=
    minDiffOver_le _ _ _
  have hmin : minDiffOver aspect (ratioDiff aspect best) (r :: rs)
      = minDiffOver aspect (ratioDiff aspect best) rs := by
    rw [minDiffOver_cons]
    exact min_eq_right (hM.trans h.le)
  unfold contSpec
  rw [hmin]
  by_cases hb : minDiffOver aspect (ratioDiff aspect best) rs < ratioDiff aspect best
  · rw [if_pos hb, if_pos hb, tiesAt_cons_ne _ _ _ _ (ne_of_gt (lt_of_le_of_lt hM h))]
  · rw [if_neg hb, if_neg hb, List.filter_cons, if_neg (by simp [ne_of_gt h])]

lemma contSpec_cons_lt (aspect area : ℚ) (e : Nat) (best r : Nat × Nat) (rs : List (Nat × Nat))
    (h : ratioDiff aspect r < ratioDiff aspect best) :
    contSpec aspect area e best (r :: rs) = contSpec aspect area e r rs := by
  have hM' : minDiffOver aspect (ratioDiff aspect r) rs ≤ ratioDiff aspect r :=
    minDiffOver_le _ _ _
  have hmin : minDiffOver aspect (ratioDiff aspect best) (r :: rs)
      = minDiffOver aspect (ratioDiff aspect r) rs := by
    rw [minDiffOver_cons, ← minDiffOver_init aspect (ratioDiff aspect best) (ratioDiff aspect r) rs,
      min_eq_right h.le]
  unfold contSpec
  rw [hmin]
  rw [if_pos (lt_of_le_of_lt hM' h)]
  by_cases hm : minDiffOver aspect (ratioDiff aspect r) rs < ratioDiff aspect r
  · rw [if_pos hm, tiesAt_cons_ne _ _ _ _ (ne_of_gt hm)]
  · have heq : minDiffOver aspect (ratioDiff aspect r) rs = ratioDiff aspect r :=
      le_antisymm hM' (not_lt.mp hm)
    rw [if_neg hm, heq, tiesAt_cons_eq _ _ _ _ rfl, List.headD_cons, lastD_cons_filter, tiesAt,
      List.filter_filter]

lemma contSpec_cons_eq_true (aspect area : ℚ) (e : Nat) (best r : Nat × Nat)
    (rs : List (Nat × Nat)) (h2 : ratioDiff aspect r = ratioDiff aspect best)
    (h3 : condB area e r = true) :
    contSpec aspect area e best (r :: rs) = contSpec aspect area e r rs := by
  have hM : minDiffOver aspect (ratioDiff aspect best) rs ≤ ratioDiff aspect best :=
    minDiffOver_le _ _ _
  have hmin : minDiffOver aspect (ratioDiff aspect best) (r :: rs)
      = minDiffOver aspect (ratioDiff aspect best) rs := by
    rw [minDiffOver_cons, h2]
    exact min_eq_right hM
  unfold contSpec
  rw [hmin, h2]
  by_cases hb : minDiffOver aspect (ratioDiff aspect best) rs < ratioDiff aspect best
  · rw [if_pos hb, if_pos hb, tiesAt_cons_ne _ _ _ _ (by rw [h2]; exact ne_of_gt hb)]
  · rw [if_neg hb, if_neg hb, List.filter_cons, if_pos (by simp [h3, h2]), lastD_cons]

lemma contSpec_cons_eq_false (aspect area : ℚ) (e : Nat) (best r : Nat × Nat)
    (rs : List (Nat × Nat)) (h2 : ratioDiff aspect r = ratioDiff aspect best)
    (h3 : condB area e r = false) :
    contSpec aspect area e best (r :: rs) = contSpec aspect area e best rs := by
  have hM : minDiffOver aspect (ratioDiff aspect best) rs ≤ ratioDiff aspect best :=
    minDiffOver_le _ _ _
  have hmin : minDiffOver aspect (ratioDiff aspect best) (r :: rs)
      = minDiffOver aspect (ratioDiff aspect best) rs := by
    rw [minDiffOver_cons, h2]
    exact min_eq_right hM
  unfold contSpec
  rw [hmin]
  by_cases hb : minDiffOver aspect (ratioDiff aspect best) rs < ratioDiff aspect best
  · rw [if_pos hb, if_pos hb, tiesAt_cons_ne _ _ _ _ (by rw [h2]; exact ne_of_gt hb)]
  · rw [if_neg hb, if_neg hb, List.filter_cons, if_neg (by simp [h3])]

/-- Characterisation of the `find_closest_aspect_ratio` loop: starting from
any running best whose diff is carried alongside it, the loop computes
`contSpec`. -/
lemma fcaAux_eq_contSpec (aspect area : ℚ) (e : Nat) (rs : List (Nat × Nat)) :
    ∀ best : Nat × Nat,
      fcaAux aspect area e rs (ratioDiff aspect best) best = contSpec aspect area e best rs := by
  induction rs with
  | nil =>
    intro best
    simp only [fcaAux, contSpec]
    rw [if_neg (show ¬ (minDiffOver aspect (ratioDiff aspect best) [] < ratioDiff aspect best) from
      lt_irrefl _)]
    rfl
  | cons r rs ih =>
    intro best
    simp only [fcaAux]
    by_cases h1 : ratioDiff aspect r < ratioDiff aspect best
    · rw [if_pos h1, ih r, contSpec_cons_lt aspect area e best r rs h1]
    · rw [if_neg h1]
      by_cases h2 : ratioDiff aspect r = ratioDiff aspect best
      · rw [if_pos h2]
        by_cases h3 : area > (1 / 2 : ℚ) * e * e * r.1 * r.2
        · rw [if_pos h3, ← h2, ih r,
            contSpec_cons_eq_true aspect area e best r rs h2 (decide_eq_true h3)]
        · rw [if_neg h3, ih best,
            contSpec_cons_eq_false aspect area e best r rs h2 (decide_eq_false h3)]
      · rw [if_neg h2, ih best,
          contSpec_cons_gt aspect area e best r rs
            (lt_of_le_of_ne (not_lt.mp h1) (Ne.symm h2))]

lemma codeAreaCond_eq_condB (w h e : Nat) :
    codeAreaCond w h e = condB ((w : ℚ) * (h : ℚ)) e := rfl

/-- The source's selection function equals the claim-style selection rule
instantiated with the source's tie-break test. -/
lemma find_closest_eq_specSelect (aspect : ℚ) (w h e : Nat) (rs : List (Nat × Nat)) :
    find_closest_aspect_ratio aspect rs w h e
      = specSelect aspect (codeAreaCond w h e) rs := by
  cases rs with
  | nil => rfl
  | cons r rest =>
    show fcaAux aspect ((w : ℚ) * (h : ℚ)) e rest (ratioDiff aspect r) r = _
    rw [fcaAux_eq_contSpec aspect ((w : ℚ) * (h : ℚ)) e rest r]
    unfold contSpec
    simp only [specSelect]
    rw [codeAreaCond_eq_condB]
    by_cases hm : minDiffOver aspect (ratioDiff aspect r) rest < ratioDiff aspect r
    · rw [if_pos hm, tiesAt_cons_ne _ _ _ _ (ne_of_gt hm)]
    · have heq : minDiffOver aspect (ratioDiff aspect r) rest = ratioDiff aspect r :=
        le_antisymm (minDiffOver_le _ _ _) (not_lt.mp hm)
      rw [if_neg hm, heq, tiesAt_cons_eq _ _ _ _ rfl, List.headD_cons, lastD_cons_filter, tiesAt,
        List.filter_filter]

/-- The raw comprehension generates exactly the pairs `(i, j)` with
`1 ≤ i`, `1 ≤ j` and `min_num ≤ i * j ≤ max_num`. -/
lemma mem_targetPairsRaw (min_num max_num : Nat) (p : Nat × Nat) :
    p ∈ targetPairsRaw min_num max_num ↔
      1 ≤ p.1 ∧ 1 ≤ p.2 ∧ min_num ≤ p.1 * p.2 ∧ p.1 * p.2 ≤ max_num := by
  obtain ⟨i, j⟩ := p
  unfold targetPairsRaw
  simp only [List.mem_flatMap, List.mem_filterMap, List.mem_range'_1]
  constructor
  · rintro ⟨n, ⟨hn1, hn2⟩, i', ⟨hi1, hi2⟩, j', ⟨hj1, hj2⟩, hsome⟩
    by_cases hc : min_num ≤ i' * j' ∧ i' * j' ≤ max_num
    · rw [if_pos hc] at hsome
      have hpair : (i', j') = (i, j) := Option.some.inj hsome
      have hii : i' = i := congrArg Prod.fst hpair
      have hjj : j' = j := congrArg Prod.snd hpair
      subst hii; subst hjj
      exact ⟨hi1, hj1, hc.1, hc.2⟩
    · rw [if_neg hc] at hsome
      exact absurd hsome (by simp)
  · rintro ⟨hi, hj, hmin, hmax⟩
    have hile : i ≤ i * j := Nat.le_mul_of_pos_right i hj
    have hjle : j ≤ i * j := Nat.le_mul_of_pos_left j hi
    refine ⟨max (max i j) min_num, ⟨le_max_right _ _, by omega⟩, i, ⟨hi, by omega⟩, j,
      ⟨hj, by omega⟩, ?_⟩
    rw [if_pos ⟨hmin, hmax⟩]

/-- Membership in the sorted candidate list, i.e. in the planner's
enumeration: exactly the pairs with product in `[min_num, max_num]`. -/
lemma mem_target_pairs_sorted (min_num max_num : Nat) (p : Nat × Nat) :
    p ∈ target_pairs_sorted min_num max_num ↔
      1 ≤ p.1 ∧ 1 ≤ p.2 ∧ min_num ≤ p.1 * p.2 ∧ p.1 * p.2 ≤ max_num := by
  unfold target_pairs_sorted
  rw [(List.perm_insertionSort _ _).mem_iff, List.mem_dedup]
  exact mem_targetPairsRaw min_num max_num p

/-- The sorted candidate list is ascending in tile count `i * j`. -/
lemma target_pairs_sorted_ascending (min_num max_num : Nat) :
    (target_pairs_sorted min_num max_num).Pairwise fun a b => a.1 * a.2 ≤ b.1 * b.2 := by
  have htot : IsTotal (Nat × Nat) fun a b => a.1 * a.2 ≤ b.1 * b.2 :=
    ⟨fun a b => Nat.le_total _ _⟩
  have htrans : IsTrans (Nat × Nat) fun a b => a.1 * a.2 ≤ b.1 * b.2 :=
    ⟨fun a b c hab hbc => le_trans hab hbc⟩
  exact List.sorted_insertionSort _ _

/-- The loop result is either the running best or one of the scanned
candidates. -/
lemma fcaAux_mem (aspect area : ℚ) (e : Nat) :
    ∀ (rs : List (Nat × Nat)) (bd : ℚ) (best : Nat × Nat),
      fcaAux aspect area e rs bd best = best ∨ fcaAux aspect area e rs bd best ∈ rs := by
  intro rs
  induction rs with
  | nil => intro bd best; exact Or.inl rfl
  | cons r rs ih =>
    intro bd best
    simp only [fcaAux]
    by_cases h1 : ratioDiff aspect r < bd
    · rw [if_pos h1]
      rcases ih (ratioDiff aspect r) r with h | h
      · exact Or.inr (by rw [h]; exact List.mem_cons_self r rs)
      · exact Or.inr (List.mem_cons_of_mem r h)
    · rw [if_neg h1]
      by_cases h2 : ratioDiff aspect r = bd
      · rw [if_pos h2]
        by_cases h3 : area > (1 / 2 : ℚ) * e * e * r.1 * r.2
        · rw [if_pos h3]
          rcases ih bd r with h | h
          · exact Or.inr (by rw [h]; exact List.mem_cons_self r rs)
          · exact Or.inr (List.mem_cons_of_mem r h)
        · rw [if_neg h3]
          rcases ih bd best with h | h
          · exact Or.inl h
          · exact Or.inr (List.mem_cons_of_mem r h)
      · rw [if_neg h2]
        rcases ih bd best with h | h
        · exact Or.inl h
        · exact Or.inr (List.mem_cons_of_mem r h)

/-- The chosen pair is `(1, 1)` (the source's initial value, returned for an
empty candidate list) or a member of the candidate list. -/
lemma find_closest_mem (aspect : ℚ) (w h e : Nat) (rs : List (Nat × Nat)) :
    find_closest_aspect_ratio aspect rs w h e = (1, 1) ∨
      find_closest_aspect_ratio aspect rs w h e ∈ rs := by
  cases rs with
  | nil => exact Or.inl rfl
  | cons r rest =>
    rcases fcaAux_mem aspect ((w : ℚ) * (h : ℚ)) e rest (ratioDiff aspect r) r with hh | hh
    · exact Or.inr (by show fcaAux _ _ _ _ _ _ ∈ _; rw [hh]; exact List.mem_cons_self r rest)
    · exact Or.inr (List.mem_cons_of_mem r hh)

/-- The chosen pair has positive tile count. -/
lemma find_closest_pos (min_num max_num : Nat) (aspect : ℚ) (w h e : Nat) :
    1 ≤ (find_closest_aspect_ratio aspect (target_pairs_sorted min_num max_num) w h e).1 *
        (find_closest_aspect_ratio aspect (target_pairs_sorted min_num max_num) w h e).2 := by
  rcases find_closest_mem aspect w h e (target_pairs_sorted min_num max_num) with hh | hh
  · rw [hh]; exact le_refl 1
  · have hb := (mem_target_pairs_sorted min_num max_num _).mp hh
    exact Nat.one_le_iff_ne_zero.mpr (Nat.mul_ne_zero (by omega) (by omega))

/-! ## Structural lemmas about the batch orchestrator and the stream loop -/

lemma clear_cache_logStarted (s : ImageProcessorState) :
    (clear_cache s).logStarted = s.logStarted := by
  unfold clear_cache
  split <;> rfl

lemma clear_cache_clearCalls (s : ImageProcessorState) :
    (clear_cache s).clearCacheCalls = s.clearCacheCalls + 1 := by
  unfold clear_cache
  split <;> rfl

lemma process_single_image_path (p : String) (o : Except PyExc String)
    (s : ImageProcessorState) : (process_single_image p o s).1.path = p := by
  cases o <;> rfl

lemma process_single_image_isSuccess (p : String) (o : Except PyExc String)
    (s : ImageProcessorState) : (process_single_image p o s).1.isSuccess = o.isOk := by
  cases o <;> rfl

lemma process_single_image_log (p : String) (o : Except PyExc String)
    (s : ImageProcessorState) :
    (process_single_image p o s).2.logStarted = s.logStarted ++ [p] := by
  cases o with
  | ok r => rfl
  | error e => cases e <;> simp [process_single_image, clear_cache_logStarted]

lemma batchLoop_paths (step : String → Except PyExc String) :
    ∀ (ps : List String) (s : ImageProcessorState),
      ((batchLoop step ps s).1).map ItemResult.path = ps := by
  intro ps
  induction ps with
  | nil => intro s; rfl
  | cons p ps ih =>
    intro s
    simp only [batchLoop, List.map_cons, process_single_image_path, ih, List.cons.injEq,
      and_self]

lemma batchLoop_succ (step : String → Except PyExc String) :
    ∀ (ps : List String) (s : ImageProcessorState),
      (batchLoop step ps s).2.1 = (ps.filter fun p => (step p).isOk).length := by
  intro ps
  induction ps with
  | nil => intro s; rfl
  | cons p ps ih =>
    intro s
    simp only [batchLoop, process_single_image_isSuccess, ih, List.filter_cons]
    by_cases hs : (step p).isOk
    · simp [hs, Nat.add_comm]
    · simp [hs]

lemma batchLoop_log (step : String → Except PyExc String) :
    ∀ (ps : List String) (s : ImageProcessorState),
      ((batchLoop step ps s).2.2).logStarted = s.logStarted ++ ps := by
  intro ps
  induction ps with
  | nil => intro s; simp [batchLoop]
  | cons p ps ih =>
    intro s
    simp only [batchLoop, ih, process_single_image_log]
    rw [List.append_assoc, List.singleton_append]

lemma streamLoop_events (step : String → Except PyExc String) (total : Nat) :
    ∀ (l : List (Nat × String)) (acc : Nat),
      (streamLoop step total l acc).1
        = l.flatMap fun ip =>
            [StreamEvent.start ip.2 (ip.1 + 1) total,
              match step ip.2 with
              | .ok r => StreamEvent.result ip.2 true r
              | .error e => StreamEvent.result ip.2 false e.toMessage] := by
  intro l
  induction l with
  | nil => intro acc; rfl
  | cons ip l ih =>
    intro acc
    obtain ⟨i, p⟩ := ip
    cases hstep : step p with
    | ok r => simp only [streamLoop, hstep, ih, List.flatMap_cons, List.cons_append,
        List.nil_append]
    | error e => simp only [streamLoop, hstep, ih, List.flatMap_cons, List.cons_append,
        List.nil_append]

lemma streamLoop_succ (step : String → Except PyExc String) (total : Nat) :
    ∀ (l : List (Nat × String)) (acc : Nat),
      (streamLoop step total l acc).2
        = acc + (l.filter fun ip => (step ip.2).isOk).length := by
  intro l
  induction l with
  | nil => intro acc; rfl
  | cons ip l ih =>
    intro acc
    obtain ⟨i, p⟩ := ip
    cases hstep : step p with
    | ok r =>
      have hf : List.filter (fun ip => (step ip.2).isOk) ((i, p) :: l)
          = (i, p) :: List.filter (fun ip => (step ip.2).isOk) l := by
        simp [List.filter_cons, hstep, Except.isOk, Except.toBool]
      simp only [streamLoop, hstep, ih, hf, List.length_cons]
      omega
    | error e =>
      have hf : List.filter (fun ip => (step ip.2).isOk) ((i, p) :: l)
          = List.filter (fun ip => (step ip.2).isOk) l := by
        simp [List.filter_cons, hstep, Except.isOk, Except.toBool]
      simp only [streamLoop, hstep, ih, hf]

/-- The loop never worsens the running best difference, and its result is at
least as close as every scanned candidate. -/
lemma fcaAux_min (aspect area : ℚ) (e : Nat) :
    ∀ (rs : List (Nat × Nat)) (bd : ℚ) (best : Nat × Nat),
      ratioDiff aspect best ≤ bd →
      ratioDiff aspect (fcaAux aspect area e rs bd best) ≤ bd ∧
        ∀ q ∈ rs, ratioDiff aspect (fcaAux aspect area e rs bd best) ≤ ratioDiff aspect q := by
  intro rs
  induction rs with
  | nil =>
    intro bd best hbd
    exact ⟨hbd, fun q hq => absurd hq (List.not_mem_nil q)⟩
  | cons r rs ih =>
    intro bd best hbd
    simp only [fcaAux]
    by_cases h1 : ratioDiff aspect r < bd
    · rw [if_pos h1]
      obtain ⟨ha, hb⟩ := ih (ratioDiff aspect r) r (le_refl _)
      refine ⟨ha.trans h1.le, fun q hq => ?_⟩
      rcases List.mem_cons.mp hq with rfl | hq'
      · exact ha
      · exact hb q hq'
    · rw [if_neg h1]
      by_cases h2 : ratioDiff aspect r = bd
      · rw [if_pos h2]
        by_cases h3 : area > (1 / 2 : ℚ) * e * e * r.1 * r.2
        · rw [if_pos h3]
          obtain ⟨ha, hb⟩ := ih bd r h2.le
          refine ⟨ha, fun q hq => ?_⟩
          rcases List.mem_cons.mp hq with rfl | hq'
          · exact ha.trans h2.ge
          · exact hb q hq'
        · rw [if_neg h3]
          obtain ⟨ha, hb⟩ := ih bd best hbd
          refine ⟨ha, fun q hq => ?_⟩
          rcases List.mem_cons.mp hq with rfl | hq'
          · exact ha.trans h2.ge
          · exact hb q hq'
      · rw [if_neg h2]
        obtain ⟨ha, hb⟩ := ih bd best hbd
        refine ⟨ha, fun q hq => ?_⟩
        rcases List.mem_cons.mp hq with rfl | hq'
        · exact ha.trans (not_lt.mp h1)
        · exact hb q hq'

/-- The chosen pair minimises the aspect difference over the candidates. -/
lemma find_closest_min (aspect : ℚ) (w h e : Nat) (rs : List (Nat × Nat)) :
    ∀ q ∈ rs, ratioDiff aspect (find_closest_aspect_ratio aspect rs w h e)
      ≤ ratioDiff aspect q := by
  cases rs with
  | nil => intro q hq; exact absurd hq (List.not_mem_nil q)
  | cons r rest =>
    intro q hq
    obtain ⟨ha, hb⟩ :=
      fcaAux_min aspect ((w : ℚ) * (h : ℚ)) e rest (ratioDiff aspect r) r (le_refl _)
    rcases List.mem_cons.mp hq with rfl | hq'
    · exact ha
    · exact hb q hq'

lemma streamLoop_length (step : String → Except PyExc String) (total : Nat) :
    ∀ (l : List (Nat × String)) (acc : Nat),
      (streamLoop step total l acc).1.length = 2 * l.length := by
  intro l
  induction l with
  | nil => intro acc; rfl
  | cons ip l ih =>
    intro acc
    obtain ⟨i, p⟩ := ip
    cases hstep : step p with
    | ok r => simp only [streamLoop, hstep, List.length_cons, ih, List.length_cons]; omega
    | error e => simp only [streamLoop, hstep, List.length_cons, ih, List.length_cons]; omega

lemma enumFrom_filter_length (step : String → Except PyExc String) (l : List String) :
    ∀ n : Nat, ((List.enumFrom n l).filter fun ip => (step ip.2).isOk).length
      = (l.filter fun p => (step p).isOk).length := by
  induction l with
  | nil => intro n; rfl
  | cons x xs ih =>
    intro n
    simp only [List.enumFrom_cons, List.filter_cons]
    by_cases hx : (step x).isOk
    · simp [hx, ih]
    · simp [hx, ih]

lemma enum_filter_length (step : String → Except PyExc String) (l : List String) :
    ((l.enum).filter fun ip => (step ip.2).isOk).length
      = (l.filter fun p => (step p).isOk).length :=
  enumFrom_filter_length step l 0

lemma ensure_models_loaded_log (s : ImageProcessorState) :
    (ensure_models_loaded s).logStarted = s.logStarted := by
  simp only [ensure_models_loaded, modelGetter, load_model_and_processor]
  by_cases h : s.is_loaded
  · rw [if_pos h]
  · rw [if_neg h, if_neg h]

/-- Normal form of `process_images_batch` on validated inputs: the loop runs
over the first `min(cap, len)` paths, tallies `(filter isOk).length`
successes, and the post-loop check decides between `totalBatchFailure` and
the summary. -/
lemma process_images_batch_valid (image_paths : List String) (num_images : Int)
    (step : String → Except PyExc String) (s : ImageProcessorState)
    (hne : image_paths ≠ []) (hpos : 0 < num_images) :
    process_images_batch image_paths num_images step s
      = (if ((image_paths.take (min num_images.toNat image_paths.length)).filter
              fun p => (step p).isOk).length = 0 then
            Except.error (BatchExc.totalBatchFailure (min num_images.toNat image_paths.length))
          else Except.ok
            ⟨(batchLoop step (image_paths.take (min num_images.toNat image_paths.length))
                (ensure_models_loaded s)).1,
              ((image_paths.take (min num_images.toNat image_paths.length)).filter
                fun p => (step p).isOk).length,
              min num_images.toNat image_paths.length
                - ((image_paths.take (min num_images.toNat image_paths.length)).filter
                    fun p => (step p).isOk).length,
              min num_images.toNat image_paths.length⟩,
          (batchLoop step (image_paths.take (min num_images.toNat image_paths.length))
              (ensure_models_loaded s)).2.2,
          true) := by
  simp only [process_images_batch]
  rw [if_neg (fun hc => hne (List.isEmpty_iff.mp hc)), if_neg (not_le.mpr hpos)]
  simp only [batchLoop_succ]
  by_cases hc : ((image_paths.take (min num_images.toNat image_paths.length)).filter
      fun p => (step p).isOk).length = 0
  · rw [if_pos hc, if_pos hc]
  · rw [if_neg hc, if_neg hc]

/-! ## Concrete states used by witnesses and counterexamples -/

/-- A freshly constructed, not yet loaded processor state on a machine with
an available CUDA accelerator. -/
def initState : ImageProcessorState :=
  { model := none, tokenizer := none, processor := none, is_loaded := false,
    cudaAvailable := true, loadCount := 0, clearCacheCalls := 0, emptyCacheCalls := 0,
    logStarted := [] }

/-- The state right after `ImageProcessor()` finishes `__post_init__` (which
runs `_load_model_and_processor`). -/
def loadedState : ImageProcessorState :=
  load_model_and_processor initState

/-! ## Claim theorems -/

/-- C3: `inference_on_images` is total at its call boundary: whichever step
of its body fails — loading/preprocessing the image (e.g. a missing file),
the device move, or `model.chat` (e.g. out of memory) — the `except
Exception` clause turns the exception into the string
`"Error processing image: " + str(e)`, and a normal run returns the chat
response; in every case the caller observes a plain string, never a raised
exception. -/
theorem c3_inference_on_images_total (loadStep : Except PyExc Nat)
    (moveStep : Nat → Except PyExc Nat) (chatStep : Nat → Except PyExc String) :
    (∀ e, loadStep = Except.error e →
      inference_on_images loadStep moveStep chatStep
        = "Error processing image: " ++ e.toMessage)
  ∧ (∀ pv e, loadStep = Except.ok pv → moveStep pv = Except.error e →
      inference_on_images loadStep moveStep chatStep
        = "Error processing image: " ++ e.toMessage)
  ∧ (∀ pv mv e, loadStep = Except.ok pv → moveStep pv = Except.ok mv →
      chatStep mv = Except.error e →
      inference_on_images loadStep moveStep chatStep
        = "Error processing image: " ++ e.toMessage)
  ∧ (∀ pv mv r, loadStep = Except.ok pv → moveStep pv = Except.ok mv →
      chatStep mv = Except.ok r →
      inference_on_images loadStep moveStep chatStep = r) := by
  refine ⟨?_, ?_, ?_, ?_⟩
  · intro e hl
    subst hl
    rfl
  · intro pv e hl hm
    subst hl
    simp [inference_on_images, inferenceTryBody, hm]
  · intro pv mv e hl hm hc
    subst hl
    simp [inference_on_images, inferenceTryBody, hm, hc]
  · intro pv mv r hl hm hc
    subst hl
    simp [inference_on_images, inferenceTryBody, hm, hc]

/-- C3 witness: a missing file and an out-of-memory failure both come back
as an error string from `inference_on_images`. -/
theorem c3_witness :
    inference_on_images (Except.error (PyExc.fileNotFound "missing.jpg")) Except.ok
        (fun _ => Except.ok "t")
      = "Error processing image: " ++ (PyExc.fileNotFound "missing.jpg").toMessage
  ∧ inference_on_images (Except.ok 1) Except.ok
        (fun _ => Except.error (PyExc.cudaOutOfMemory "CUDA out of memory"))
      = "Error processing image: " ++ (PyExc.cudaOutOfMemory "CUDA out of memory").toMessage :=
  ⟨(c3_inference_on_images_total _ _ _).1 _ rfl,
   (c3_inference_on_images_total _ _ _).2.2.1 1 1 _ rfl rfl rfl⟩

/-- C9 counterexample: `clear_cache` — the source operation behind the
spec's `release()` — does NOT reset the resource to unloaded: starting from
a freshly loaded processor, after `clear_cache` the `_is_loaded` flag is
still true, the model and tokenizer handles are still present, and a
subsequent `model` access returns the same handle without performing a new
load. -/
theorem c9_counterexample :
    (clear_cache loadedState).is_loaded = true
  ∧ (clear_cache loadedState).model = some 1
  ∧ (clear_cache loadedState).tokenizer = some 1
  ∧ (modelGetter (clear_cache loadedState)).2.loadCount = loadedState.loadCount
  ∧ (modelGetter (clear_cache loadedState)).1 = some 1 := by
  refine ⟨by decide, by decide, by decide, by decide, by decide⟩

/-- C9 (amended): `clear_cache` empties the CUDA cache when an accelerator
is available but leaves the loaded flag and the model/tokenizer handles
untouched; a subsequent `model` access on a loaded state returns the
existing handle without triggering a fresh load. Only `reload_model` resets
the state. -/
theorem c9_clear_cache_keeps_resource (s : ImageProcessorState) :
    (clear_cache s).is_loaded = s.is_loaded
  ∧ (clear_cache s).model = s.model
  ∧ (clear_cache s).tokenizer = s.tokenizer
  ∧ (clear_cache s).clearCacheCalls = s.clearCacheCalls + 1
  ∧ (s.cudaAvailable = true → (clear_cache s).emptyCacheCalls = s.emptyCacheCalls + 1)
  ∧ (s.is_loaded = true → modelGetter (clear_cache s) = (s.model, clear_cache s)) := by
  have h1 : (clear_cache s).is_loaded = s.is_loaded := by unfold clear_cache; split <;> rfl
  have h2 : (clear_cache s).model = s.model := by unfold clear_cache; split <;> rfl
  have h3 : (clear_cache s).tokenizer = s.tokenizer := by unfold clear_cache; split <;> rfl
  refine ⟨h1, h2, h3, clear_cache_clearCalls s, ?_, ?_⟩
  · intro hc
    unfold clear_cache
    rw [if_pos hc]
  · intro hl
    simp only [modelGetter, h1, hl, if_true, h2]

/-- C9 witness: the amended statement applied to the freshly loaded state. -/
theorem c9_witness :
    (clear_cache loadedState).emptyCacheCalls = loadedState.emptyCacheCalls + 1
  ∧ modelGetter (clear_cache loadedState) = (loadedState.model, clear_cache loadedState) :=
  ⟨(c9_clear_cache_keeps_resource loadedState).2.2.2.2.1 (by decide),
   (c9_clear_cache_keeps_resource loadedState).2.2.2.2.2 (by decide)⟩

/-- C10 counterexample: with width 0 (so W ≤ 0) and height 100, the planner
does not fail at all — `dynamic_preprocess` happily produces a tile plan and
tile list; no InvalidImageDimensions error exists in the source. -/
theorem c10_counterexample :
    (dynamic_preprocess (PImage.src 0 100) 1 12 448 false).isOk = true := by decide

/-- C10 (amended): the planner performs no dimension validation. Height 0
makes the aspect computation `W / H` raise a ZeroDivisionError; any positive
height — including with width 0 — produces a tile list without error. -/
theorem c10_no_dimension_validation (w h min_num max_num image_size : Nat) (t : Bool) :
    dynamic_preprocess (PImage.src w 0) min_num max_num image_size t
        = Except.error PyExc.zeroDivisionError
  ∧ (h ≠ 0 →
      (dynamic_preprocess (PImage.src w h) min_num max_num image_size t).isOk = true) := by
  constructor
  · rfl
  · intro hh
    simp only [dynamic_preprocess]
    rw [if_neg (show ¬ (PImage.src w h).height = 0 from hh)]
    split <;> rfl

/-- C10 witness: the amended statement at concrete inputs 0×100 and 5×0. -/
theorem c10_witness :
    (dynamic_preprocess (PImage.src 0 100) 1 12 448 true).isOk = true
  ∧ dynamic_preprocess (PImage.src 5 0) 1 12 448 false
      = Except.error PyExc.zeroDivisionError :=
  ⟨(c10_no_dimension_validation 0 100 1 12 448 true).2 (by decide),
   (c10_no_dimension_validation 5 100 1 12 448 false).1⟩

/-- C1 counterexample: a per-item failure of a listed kind arising inside
the inference call is NOT classified as an error result. With a missing
file, `inference_on_images` swallows the FileNotFoundError and returns an
error string, so `_process_single_image` reports the item as a SUCCESS; with
an out-of-memory failure inside the call, no cache clear happens and the
item is also reported successful —  contradicting the claim that these
failures yield error-status results (and a cache clear for OOM). -/
theorem c1_counterexample :
    (process_single_image "img.jpg"
        (Except.ok (inference_on_images
          (Except.error (PyExc.fileNotFound "No such file or directory")) Except.ok
          (fun _ => Except.ok "txt"))) initState).1.status
      = ItemStatus.success ("Error processing image: " ++ "No such file or directory")
  ∧ (process_single_image "img.jpg"
        (Except.ok (inference_on_images
          (Except.error (PyExc.cudaOutOfMemory "CUDA out of memory")) Except.ok
          (fun _ => Except.ok "txt"))) initState).2.clearCacheCalls
      = initState.clearCacheCalls
  ∧ (process_single_image "img.jpg"
        (Except.ok (inference_on_images
          (Except.error (PyExc.fileNotFound "No such file or directory")) Except.ok
          (fun _ => Except.ok "txt"))) initState).1.isSuccess = true :=
  ⟨rfl, rfl, rfl⟩

/-- C1 (amended): when one of the five listed exception classes reaches
`_process_single_image` (raised while evaluating the per-item call, e.g. by
the `tokenizer` property — not from inside `inference_on_images`, which
catches everything), it is classified by its own handler into a distinct
error result without aborting the batch (the loop still visits every listed
path regardless of outcomes), and only the out-of-memory class triggers
`clear_cache`, the item still being reported failed; but a failure occurring
inside `inference_on_images` is swallowed there and the item is reported as
a success. -/
theorem c1_item_failure_classification (image_path : String) (e : PyExc)
    (s : ImageProcessorState) (step : String → Except PyExc String) (ps : List String)
    (m1 m2 m3 m4 m5 : String) :
    (process_single_image image_path (Except.error e) s).1.status
        = ItemStatus.error (classifyExc e) e.toMessage
  ∧ ([PyExc.fileNotFound m1, PyExc.permissionDenied m2, PyExc.valueError m3,
      PyExc.cudaOutOfMemory m4, PyExc.otherError m5].map classifyExc).Pairwise (· ≠ ·)
  ∧ (process_single_image image_path (Except.error e) s).2.clearCacheCalls
        = s.clearCacheCalls + (if classifyExc e = ErrorKind.outOfMemory then 1 else 0)
  ∧ ((batchLoop step ps s).1).map ItemResult.path = ps
  ∧ (∀ loadErr (moveStep : Nat → Except PyExc Nat) (chatStep : Nat → Except PyExc String),
      (process_single_image image_path
          (Except.ok (inference_on_images (Except.error loadErr) moveStep chatStep)) s).1.status
        = ItemStatus.success ("Error processing image: " ++ loadErr.toMessage)) := by
  refine ⟨by cases e <;> rfl, ?_, ?_, batchLoop_paths step ps s, ?_⟩
  · simp only [List.map_cons, List.map_nil, classifyExc]
    decide
  · cases e <;> simp [process_single_image, clear_cache_clearCalls, classifyExc]
  · intro loadErr moveStep chatStep
    rfl

/-- C2 counterexample: a batch in which every path is missing does NOT raise
`TotalBatchFailure`: each missing file is swallowed inside
`inference_on_images`, every item is tallied as a success, and the batch
returns a summary with success count 2 and failure count 0. -/
theorem c2_counterexample :
    (process_images_batch ["a.jpg", "b.jpg"] 7
        (fun p => Except.ok (inference_on_images
          (Except.error (PyExc.fileNotFound p)) Except.ok (fun _ => Except.ok "txt")))
        initState).1
      = Except.ok
          ⟨[⟨"a.jpg", ItemStatus.success ("Error processing image: " ++ "a.jpg")⟩,
            ⟨"b.jpg", ItemStatus.success ("Error processing image: " ++ "b.jpg")⟩],
            2, 0, 2⟩ := by
  rfl

/-- C2 (amended): for every non-empty batch with positive cap in which every
attempted item fails in the wrapper's sense — the per-item call raises into
`_process_single_image` (a merely missing path does not qualify, since
`inference_on_images` converts it into an error string counted as success) —
the orchestrator raises `TotalBatchFailure` exactly once, carrying the
attempted count, and only after the whole attempted set has been processed
(the per-item start log covers every attempted path); it is never raised,
with any payload, when at least one attempted item succeeds. -/
theorem c2_total_batch_failure (image_paths : List String) (num_images : Int)
    (step : String → Except PyExc String) (s : ImageProcessorState)
    (hne : image_paths ≠ []) (hpos : 0 < num_images) :
    ((process_images_batch image_paths num_images step s).1
        = Except.error (BatchExc.totalBatchFailure (min num_images.toNat image_paths.length))
      ↔ ∀ p ∈ image_paths.take (min num_images.toNat image_paths.length),
          (step p).isOk = false)
  ∧ ((process_images_batch image_paths num_images step s).2.1.logStarted
        = s.logStarted ++ image_paths.take (min num_images.toNat image_paths.length))
  ∧ (∀ q ∈ image_paths.take (min num_images.toNat image_paths.length),
      (step q).isOk = true →
        ∀ t, (process_images_batch image_paths num_images step s).1
          ≠ Except.error (BatchExc.totalBatchFailure t)) := by
  have hE := process_images_batch_valid image_paths num_images step s hne hpos
  refine ⟨?_, ?_, ?_⟩
  · rw [hE]
    by_cases hc : ((image_paths.take (min num_images.toNat image_paths.length)).filter
        fun p => (step p).isOk).length = 0
    · rw [if_pos hc]
      constructor
      · intro _ p hp
        exact Bool.eq_false_iff.mpr
          (List.filter_eq_nil_iff.mp (List.length_eq_zero.mp hc) p hp)
      · intro _
        rfl
    · rw [if_neg hc]
      constructor
      · intro habs
        simp at habs
      · intro hall
        exact absurd (List.length_eq_zero.mpr (List.filter_eq_nil_iff.mpr
          fun p hp => by rw [hall p hp]; simp)) hc
  · rw [hE]
    show ((batchLoop step (image_paths.take (min num_images.toNat image_paths.length))
        (ensure_models_loaded s)).2.2).logStarted = _
    rw [batchLoop_log, ensure_models_loaded_log]
  · intro q hq hqok t
    rw [hE]
    have hc : ¬ (((image_paths.take (min num_images.toNat image_paths.length)).filter
        fun p => (step p).isOk).length = 0) := by
      intro h0
      have hnot := List.filter_eq_nil_iff.mp (List.length_eq_zero.mp h0) q hq
      rw [hqok] at hnot
      exact hnot rfl
    rw [if_neg hc]
    simp

/-- C2 witness: a 3-path batch with cap 2 in which both attempted items
genuinely fail in the wrapper (the call raises a RuntimeError) does raise
`TotalBatchFailure`, and its payload is the attempted count 2. -/
theorem c2_witness :
    (process_images_batch ["a.jpg", "b.jpg", "c.jpg"] 2
        (fun _ => Except.error (PyExc.runtimeError "boom")) initState).1
      = Except.error (BatchExc.totalBatchFailure 2) :=
  (c2_total_batch_failure ["a.jpg", "b.jpg", "c.jpg"] 2
    (fun _ => Except.error (PyExc.runtimeError "boom")) initState (by decide)
    (by decide)).1.mpr fun p _ => rfl

/-- C6: on validated inputs the orchestrator attempts exactly the first
`min(cap, total discovered)` paths, strictly in list order (witnessed by the
per-item start log), and any summary it returns satisfies success count +
failure count = total attempted = `min(cap, total discovered)`, with the
per-item results listed in input order. -/
theorem c6_batch_cap_order_tally (image_paths : List String) (num_images : Int)
    (step : String → Except PyExc String) (s : ImageProcessorState)
    (hne : image_paths ≠ []) (hpos : 0 < num_images) :
    ((process_images_batch image_paths num_images step s).2.1.logStarted
        = s.logStarted ++ image_paths.take (min num_images.toNat image_paths.length))
  ∧ (image_paths.take (min num_images.toNat image_paths.length)).length
        = min num_images.toNat image_paths.length
  ∧ ∀ summary, (process_images_batch image_paths num_images step s).1 = Except.ok summary →
      summary.successful_count + summary.failed_count = summary.total_processed
    ∧ summary.total_processed = min num_images.toNat image_paths.length
    ∧ summary.results.map ItemResult.path
        = image_paths.take (min num_images.toNat image_paths.length) := by
  have hE := process_images_batch_valid image_paths num_images step s hne hpos
  refine ⟨?_, ?_, ?_⟩
  · rw [hE]
    show ((batchLoop step (image_paths.take (min num_images.toNat image_paths.length))
        (ensure_models_loaded s)).2.2).logStarted = _
    rw [batchLoop_log, ensure_models_loaded_log]
  · rw [List.length_take]
    exact min_eq_left (min_le_right _ _)
  · intro summary hsum
    rw [hE] at hsum
    by_cases hc : ((image_paths.take (min num_images.toNat image_paths.length)).filter
        fun p => (step p).isOk).length = 0
    · rw [if_pos hc] at hsum
      simp at hsum
    · rw [if_neg hc] at hsum
      obtain rfl := Except.ok.inj hsum
      refine ⟨?_, rfl, batchLoop_paths step _ _⟩
      have h1 := List.length_filter_le (fun p => (step p).isOk)
        (image_paths.take (min num_images.toNat image_paths.length))
      have h2 := List.length_take (min num_images.toNat image_paths.length) image_paths
      simp only [BatchSummary.successful_count, BatchSummary.failed_count,
        BatchSummary.total_processed]
      omega

/-- C6 witness: with 10 discovered paths and cap 7, exactly the first 7 are
attempted in order. -/
theorem c6_witness :
    (process_images_batch ["p1", "p2", "p3", "p4", "p5", "p6", "p7", "p8", "p9", "p10"] 7
        (fun _ => Except.ok "d") initState).2.1.logStarted
      = initState.logStarted
          ++ ["p1", "p2", "p3", "p4", "p5", "p6", "p7", "p8", "p9", "p10"].take
              (min (7 : Int).toNat
                (["p1", "p2", "p3", "p4", "p5", "p6", "p7", "p8", "p9", "p10"] : List String).length) :=
  (c6_batch_cap_order_tally ["p1", "p2", "p3", "p4", "p5", "p6", "p7", "p8", "p9", "p10"] 7
    (fun _ => Except.ok "d") initState (by decide) (by decide)).1

/-- C7: the batch orchestrator rejects an empty image list with the
EmptyBatch validation error and a non-positive cap with the InvalidCap
validation error, in both cases before any access to the inference resource
(the state is returned untouched and the resource-access flag is false);
with a non-empty list and a positive cap neither validation error is
raised. -/
theorem c7_batch_validation (image_paths : List String) (num_images : Int)
    (step : String → Except PyExc String) (s : ImageProcessorState) :
    (image_paths = [] →
      process_images_batch image_paths num_images step s
        = (Except.error BatchExc.emptyBatch, s, false))
  ∧ (image_paths ≠ [] → num_images ≤ 0 →
      process_images_batch image_paths num_images step s
        = (Except.error BatchExc.invalidCap, s, false))
  ∧ (image_paths ≠ [] → 0 < num_images →
      (process_images_batch image_paths num_images step s).1
          ≠ Except.error BatchExc.emptyBatch
    ∧ (process_images_batch image_paths num_images step s).1
          ≠ Except.error BatchExc.invalidCap) := by
  refine ⟨?_, ?_, ?_⟩
  · intro he
    simp only [process_images_batch]
    rw [if_pos (List.isEmpty_iff.mpr he)]
  · intro hne hle
    simp only [process_images_batch]
    rw [if_neg (fun hc => hne (List.isEmpty_iff.mp hc)), if_pos hle]
  · intro hne hpos
    simp only [process_images_batch]
    rw [if_neg (fun hc => hne (List.isEmpty_iff.mp hc)), if_neg (not_le.mpr hpos)]
    constructor <;> split <;> simp

/-- C4 counterexample: at a 100×200 image (aspect exactly 1/2, a dyadic
value on which float and rational arithmetic agree) with min 1, max 12,
tile edge 448, the source selects (1, 2), but the claim's tie-break rule —
prefer a tie whose tile area i*j*448² exceeds half of W*H, last such tie
winning — would select (2, 4): the ties at minimal difference 0 are (1, 2)
and (2, 4), both with tile area exceeding half of the 20000-pixel image.
The source's actual test is the reverse comparison (image area exceeding
half of the tile area), which both ties fail, leaving the first tie
(1, 2). -/
theorem c4_counterexample :
    find_closest_aspect_ratio ((100 : ℚ) / (200 : ℚ)) (target_pairs_sorted 1 12) 100 200 448
        = (1, 2)
  ∧ specSelect ((100 : ℚ) / (200 : ℚ)) (claimAreaCond 100 200 448) (target_pairs_sorted 1 12)
        = (2, 4)
  ∧ ((1, 2) : Nat × Nat) ≠ (2, 4) :=
  ⟨by decide, by decide, by decide⟩

/-- C4 (amended): the planner enumerates exactly the pairs (i, j) with
1 ≤ i, 1 ≤ j and min_tiles ≤ i·j ≤ max_tiles, iterated in ascending i·j
order; it selects a candidate minimising |W/H − i/j|, and among the
candidates attaining the minimal difference it prefers one for which the
IMAGE area W·H exceeds half of the candidate's tile area i·j·tile_edge²
(the reverse of the claimed comparison), the last such candidate in
iteration order winning and the first minimal candidate standing when no
tie passes the test — as captured by `specSelect` with the source's area
test. -/
theorem c4_planner_enumeration_and_selection (min_num max_num width height image_size : Nat)
    (p : Nat × Nat) (aspect : ℚ) :
    (p ∈ target_pairs_sorted min_num max_num ↔
      1 ≤ p.1 ∧ 1 ≤ p.2 ∧ min_num ≤ p.1 * p.2 ∧ p.1 * p.2 ≤ max_num)
  ∧ (target_pairs_sorted min_num max_num).Pairwise (fun a b => a.1 * a.2 ≤ b.1 * b.2)
  ∧ (∀ q ∈ target_pairs_sorted min_num max_num,
      ratioDiff aspect (find_closest_aspect_ratio aspect (target_pairs_sorted min_num max_num)
          width height image_size)
        ≤ ratioDiff aspect q)
  ∧ find_closest_aspect_ratio aspect (target_pairs_sorted min_num max_num) width height
        image_size
      = specSelect aspect (codeAreaCond width height image_size)
          (target_pairs_sorted min_num max_num) :=
  ⟨mem_target_pairs_sorted min_num max_num p,
   target_pairs_sorted_ascending min_num max_num,
   find_closest_min aspect width height image_size _,
   find_closest_eq_specSelect aspect width height image_size _⟩

/-- C4 witness: the amended statement applied at the 100×200 image —
minimality against the concrete candidate (3, 2), and a concrete membership
instance. -/
theorem c4_witness :
    ratioDiff ((100 : ℚ) / (200 : ℚ))
        (find_closest_aspect_ratio ((100 : ℚ) / (200 : ℚ)) (target_pairs_sorted 1 12)
          100 200 448)
      ≤ ratioDiff ((100 : ℚ) / (200 : ℚ)) (3, 2)
  ∧ ((1, 2) : Nat × Nat) ∈ target_pairs_sorted 1 12 :=
  ⟨(c4_planner_enumeration_and_selection 1 12 100 200 448 (1, 2)
      ((100 : ℚ) / (200 : ℚ))).2.2.1 (3, 2) (by decide),
   (c4_planner_enumeration_and_selection 1 12 100 200 448 (1, 2)
      ((100 : ℚ) / (200 : ℚ))).1.mpr (by decide)⟩

/-- C5: over a non-empty listing, the stream is exactly one `metadata`
record with zeroed counters, then, for each of the first
`min(max_images, k)` paths in order, a `start` record followed by one
`result` record (success or the item's error, the loop continuing either
way), then one final `complete` record with the tallies; its length is
`2 + 2·min(max_images, k)` — 8 records for a 3-image batch — regardless of
the individual outcomes. -/
theorem c5_stream_event_sequence (image_paths : List String) (max_images : Nat)
    (step : String → Except PyExc String) (hne : image_paths ≠ []) :
    generate_stream image_paths max_images (Except.ok ()) step
      = StreamEvent.metadata image_paths.length 0 0 0
          :: (((image_paths.take max_images).enum.flatMap fun ip =>
                [StreamEvent.start ip.2 (ip.1 + 1) (image_paths.take max_images).length,
                  match step ip.2 with
                  | .ok r => StreamEvent.result ip.2 true r
                  | .error e => StreamEvent.result ip.2 false e.toMessage])
            ++ [StreamEvent.complete (image_paths.take max_images).length
                  ((image_paths.take max_images).filter fun p => (step p).isOk).length
                  ((image_paths.take max_images).length
                    - ((image_paths.take max_images).filter fun p => (step p).isOk).length)])
  ∧ (generate_stream image_paths max_images (Except.ok ()) step).length
      = 2 + 2 * min max_images image_paths.length := by
  constructor
  · simp only [generate_stream]
    rw [if_neg (fun hc => hne (List.isEmpty_iff.mp hc))]
    rw [streamLoop_events, streamLoop_succ, Nat.zero_add, enum_filter_length]
  · simp only [generate_stream]
    rw [if_neg (fun hc => hne (List.isEmpty_iff.mp hc))]
    simp only [List.length_cons, List.length_append, streamLoop_length, List.enum_length,
      List.length_take, List.length_singleton, List.length_nil]
    omega

/-- C5 witness: a 3-image batch with one failing item yields exactly 8
records. -/
theorem c5_witness :
    (generate_stream ["a.jpg", "b.jpg", "c.jpg"] 7 (Except.ok ())
        (fun p => if p = "b.jpg" then Except.error (PyExc.runtimeError "Failed to load tokenizer")
          else Except.ok "desc")).length = 8 := by
  rw [(c5_stream_event_sequence ["a.jpg", "b.jpg", "c.jpg"] 7 _ (by decide)).2]
  decide

/-- C8: the tiler's output has exactly i·j tiles when thumbnailing is
disabled or the chosen grid (i, j) has a single tile, and i·j + 1 tiles when
thumbnailing is enabled and i·j > 1, the extra tile being the original
pre-grid image resized to tile_edge × tile_edge and appended last. -/
theorem c8_tiler_output_length (image : PImage) (min_num max_num image_size : Nat)
    (use_thumbnail : Bool) (tiles : List PImage) (grid : Nat × Nat)
    (hok : dynamic_preprocess image min_num max_num image_size use_thumbnail
        = Except.ok tiles)
    (hgrid : grid = find_closest_aspect_ratio ((image.width : ℚ) / (image.height : ℚ))
        (target_pairs_sorted min_num max_num) image.width image.height image_size) :
    ((use_thumbnail = false ∨ grid.1 * grid.2 = 1) → tiles.length = grid.1 * grid.2)
  ∧ (use_thumbnail = true ∧ 1 < grid.1 * grid.2 →
      tiles.length = grid.1 * grid.2 + 1
      ∧ tiles.getLast? = some (image.resize image_size image_size)) := by
  have hh : ¬ (image.height = 0) := by
    intro h0
    simp only [dynamic_preprocess] at hok
    rw [if_pos h0] at hok
    exact Except.noConfusion hok
  simp only [dynamic_preprocess] at hok
  rw [if_neg hh, ← hgrid] at hok
  simp only [List.length_map, List.length_range] at hok
  refine ⟨?_, ?_⟩
  · rintro (hf | h1)
    · rw [if_neg (by simp [hf])] at hok
      obtain rfl := Except.ok.inj hok
      simp
    · rw [if_neg (by simp [h1])] at hok
      obtain rfl := Except.ok.inj hok
      simp
  · rintro ⟨ht, hgt⟩
    rw [if_pos ⟨ht, by omega⟩] at hok
    obtain rfl := Except.ok.inj hok
    constructor
    · simp
    · exact List.getLast?_concat _

/-- The tile list produced for a 896×448 image with thumbnailing enabled:
grid (2, 1), two row-major crops of the stretched image, then the appended
whole-image thumbnail. -/
def c8witnessTiles : List PImage :=
  [PImage.crop (PImage.resize (PImage.src 896 448) 896 448) 0 0 448 448,
   PImage.crop (PImage.resize (PImage.src 896 448) 896 448) 448 0 896 448,
   PImage.resize (PImage.src 896 448) 448 448]

/-- C8 witness: for the 896×448 image, grid (2, 1) with thumbnailing: three
tiles, the last being the original resized to 448×448. -/
theorem c8_witness :
    c8witnessTiles.length = 2 * 1 + 1
  ∧ c8witnessTiles.getLast? = some (PImage.resize (PImage.src 896 448) 448 448) :=
  (c8_tiler_output_length (PImage.src 896 448) 1 12 448 true c8witnessTiles (2, 1)
    (by decide) (by decide)).2 ⟨rfl, by decide⟩

/-- C7 witness: the three validation outcomes at concrete batches. -/
theorem c7_witness :
    process_images_batch [] 7 (fun _ => Except.ok "d") initState
        = (Except.error BatchExc.emptyBatch, initState, false)
  ∧ process_images_batch ["a.jpg"] 0 (fun _ => Except.ok "d") initState
        = (Except.error BatchExc.invalidCap, initState, false)
  ∧ (process_images_batch ["a.jpg"] 7 (fun _ => Except.ok "d") initState).1
        ≠ Except.error BatchExc.emptyBatch :=
  ⟨(c7_batch_validation [] 7 _ initState).1 rfl,
   (c7_batch_validation ["a.jpg"] 0 _ initState).2.1 (by decide) (by decide),
   ((c7_batch_validation ["a.jpg"] 7 _ initState).2.2 (by decide) (by decide)).1⟩

end ImagesSorter
